import Mathlib

/-!
Verification of the chat-pii-anonymizer core: the span resolver, the text
substitution engine and the evaluation metric, embedded from
`src/anonymizer/regex.py` (`RegexAnonymizer.anonymize_text`,
`RegexAnonymizer.evaluate_anonymization`) and the identical logic in
`chat-anaonymizer.py`.
-/

namespace ChatPII

/-- A candidate PII span, embedding the Python dict
`{'start': int, 'end': int, 'label': str}` built in `anonymize_text`.
The field `stop` renders the dict key `'end'` (a reserved word in Lean).
Offsets are Python `int`s, hence `Int`. -/
structure Span where
  start : Int
  stop : Int
  label : String
deriving DecidableEq

/-- The sort key comparison used at `matches.sort(key=lambda m: (m["start"], -m["end"]))`
(regex.py line 72): lexicographic on `(start, -stop)`, i.e. start ascending,
stop descending at equal starts. -/
def spanLE (a b : Span) : Bool :=
  decide (a.start < b.start ∨ (a.start = b.start ∧ b.stop ≤ a.stop))

/-- `matches.sort(...)` from regex.py line 72: a stable sort by `(start, -end)`. -/
def sortMatches (ms : List Span) : List Span :=
  ms.mergeSort spanLE

/-- The overlap-filtering sweep of regex.py lines 75-80: walk the sorted list
keeping `current_end`; accept a match iff `m["start"] >= current_end`, and on
acceptance set `current_end = m["end"]`. -/
def filterOverlapping (current_end : Int) : List Span → List Span
  | [] => []
  | m :: rest =>
    if m.start ≥ current_end then m :: filterOverlapping m.stop rest
    else filterOverlapping current_end rest

/-- The full Span Resolver of regex.py lines 71-80: sort, then sweep with
`current_end` initialized to 0. -/
def resolveSpans (ms : List Span) : List Span :=
  filterOverlapping 0 (sortMatches ms)

/-- The placeholder written for a span: `f"[{m['label']}]"` (regex.py line 87). -/
def placeholder (m : Span) : List Char :=
  '[' :: m.label.data ++ [']']

/-- Normalization of one Python slice index `i` against a sequence of length
`n`: negative indices count from the end and everything is clamped into
`[0, n]`, exactly as Python slicing does. -/
def pyNorm (n : Nat) (i : Int) : Nat :=
  if i < 0 then (i + n).toNat else min i.toNat n

/-- Python slice `s[a:b]` on a list of characters. -/
def pythonSlice (s : List Char) (a b : Int) : List Char :=
  (s.take (pyNorm s.length b)).drop (pyNorm s.length a)

/-- Python slice `s[a:]` on a list of characters. -/
def pythonSliceFrom (s : List Char) (a : Int) : List Char :=
  s.drop (pyNorm s.length a)

/-- The reconstruction loop of regex.py lines 83-88, with its accumulator
`anonymized_text` and cursor `last_index`: for each filtered span append
`text[last_index:m["start"]]` and the placeholder, then move the cursor to
`m["end"]`. -/
def reconstructAux (text : List Char) (acc : List Char) (last_index : Int) :
    List Span → List Char
  | [] => acc ++ pythonSliceFrom text last_index
  | m :: rest =>
    reconstructAux text (acc ++ pythonSlice text last_index m.start ++ placeholder m)
      m.stop rest

/-- The Text Substitution Engine of regex.py lines 82-89: start with an empty
accumulator and `last_index = 0`, then run the loop and append the tail
`text[last_index:]`. -/
def reconstructText (text : List Char) (spans : List Span) : List Char :=
  reconstructAux text [] 0 spans

/-- `AnonymizationResult` from `src/anonymizer/base.py`: the rebuilt text and
the entity list (the Resolved set) used to produce it. -/
structure AnonymizationResult where
  text : List Char
  entities : List Span
deriving DecidableEq

/-- The post-detection part of `RegexAnonymizer.anonymize_text`
(regex.py lines 71-91), parameterized by the candidate list that the
detection phase (regex patterns and the external NLP model, lines 43-69)
produced for the input text: resolve overlaps, rebuild the text, and return
both. -/
def anonymize_text (text : List Char) (ms : List Span) : AnonymizationResult :=
  let filtered := resolveSpans ms
  { text := reconstructText text filtered, entities := filtered }

/-- The candidate-collection control flow of regex.py lines 42-69: the sources
(each regex pattern, then the NLP model) are queried in order and their spans
appended to one list. The loop body contains no exception handler, so a
raising source propagates immediately; this is rendered with each source's
outcome as an `Except` and sequential bind. -/
def collectCandidates {ε : Type} : List (Except ε (List Span)) → Except ε (List Span)
  | [] => Except.ok []
  | r :: rest => do
    let x ← r
    let xs ← collectCandidates rest
    pure (x ++ xs)

/-- The parallel label vectors built at regex.py lines 100-107: for every
expected token a pair `(1, 1 if it occurs in the anonymized tokens else 0)`;
then for every anonymized token absent from the expected tokens a pair
`(0, 1)`. -/
def buildYPairs (expected anonymized : List String) : List (Nat × Nat) :=
  expected.map (fun e => (1, if e ∈ anonymized then 1 else 0))
    ++ (anonymized.filter (fun a => decide (a ∉ expected))).map (fun _ => (0, 1))

/-- True positives: pairs with `y_true = 1` and `y_pred = 1`. -/
def tpCount (pairs : List (Nat × Nat)) : Nat :=
  pairs.countP (fun p => p.1 == 1 && p.2 == 1)

/-- False positives: pairs with `y_true = 0` and `y_pred = 1`. -/
def fpCount (pairs : List (Nat × Nat)) : Nat :=
  pairs.countP (fun p => p.1 == 0 && p.2 == 1)

/-- False negatives: pairs with `y_true = 1` and `y_pred = 0`. -/
def fnCount (pairs : List (Nat × Nat)) : Nat :=
  pairs.countP (fun p => p.1 == 1 && p.2 == 0)

/-- `sklearn.metrics.precision_score(y_true, y_pred, zero_division=0)` on
binary labels: `TP/(TP+FP)`, and `0` when the denominator is `0`. -/
def precision_score (pairs : List (Nat × Nat)) : ℚ :=
  if tpCount pairs + fpCount pairs = 0 then 0
  else (tpCount pairs : ℚ) / ((tpCount pairs : ℚ) + (fpCount pairs : ℚ))

/-- `sklearn.metrics.recall_score(y_true, y_pred, zero_division=0)` on binary
labels: `TP/(TP+FN)`, and `0` when the denominator is `0`. -/
def recall_score (pairs : List (Nat × Nat)) : ℚ :=
  if tpCount pairs + fnCount pairs = 0 then 0
  else (tpCount pairs : ℚ) / ((tpCount pairs : ℚ) + (fnCount pairs : ℚ))

/-- `sklearn.metrics.f1_score(y_true, y_pred, zero_division=0)` on binary
labels: `2TP/(2TP+FP+FN)`, and `0` when the denominator is `0`. -/
def f1_score (pairs : List (Nat × Nat)) : ℚ :=
  if 2 * tpCount pairs + fpCount pairs + fnCount pairs = 0 then 0
  else (2 * (tpCount pairs : ℚ)) /
    (2 * (tpCount pairs : ℚ) + (fpCount pairs : ℚ) + (fnCount pairs : ℚ))

/-- The metric computation of `evaluate_anonymization` (regex.py lines
100-113) on the two extracted token lists: build the parallel vectors and
return `(Precision, Recall, F1)`. -/
def evaluateTokens (expected anonymized : List String) : ℚ × ℚ × ℚ :=
  let pairs := buildYPairs expected anonymized
  (precision_score pairs, recall_score pairs, f1_score pairs)

/-- Modelled from the spec (section 4.3), for comparison with the code's
reconstruction: maintain a cursor, append `text[cursor:span.start]` then the
placeholder, advance the cursor to `span.stop`, and after the loop append
`text[cursor:]`; slices written with plain `take`/`drop`. -/
def specReconstruct (text : List Char) (cursor : Nat) : List Span → List Char
  | [] => text.drop cursor
  | s :: rest =>
    (text.take s.start.toNat).drop cursor ++ placeholder s
      ++ specReconstruct text s.stop.toNat rest

/-- Validity of a span list against a text of length `n`, from cursor `c`:
each span lies within the text, has `start ≤ stop`, and starts at or after
the previous span's stop (the Resolved-set shape of spec section 3). -/
def validFrom (n : Nat) (c : Int) : List Span → Bool
  | [] => true
  | s :: rest =>
    decide (c ≤ s.start) && decide (s.start ≤ s.stop) && decide (s.stop ≤ (n : Int))
      && validFrom n s.stop rest

theorem filterOverlapping_sublist : ∀ (c : Int) (l : List Span),
    (filterOverlapping c l).Sublist l
  | _, [] => by simp [filterOverlapping]
  | c, m :: rest => by
    rw [filterOverlapping]
    split
    · exact (filterOverlapping_sublist m.stop rest).cons₂ m
    · exact (filterOverlapping_sublist c rest).cons m

theorem filterOverlapping_head_ge : ∀ (c : Int) (l : List Span) (x : Span)
    (xs : List Span), filterOverlapping c l = x :: xs → c ≤ x.start
  | c, [], x, xs => by simp [filterOverlapping]
  | c, m :: rest, x, xs => by
    rw [filterOverlapping]
    split
    · rename_i h
      intro he
      cases he
      exact h
    · exact filterOverlapping_head_ge c rest x xs

theorem filterOverlapping_chain : ∀ (c : Int) (l : List Span),
    (filterOverlapping c l).Chain' (fun a b => a.stop ≤ b.start)
  | _, [] => by simp [filterOverlapping]
  | c, m :: rest => by
    rw [filterOverlapping]
    split
    · refine List.chain'_cons'.mpr ⟨?_, filterOverlapping_chain m.stop rest⟩
      intro y hy
      cases hfo : filterOverlapping m.stop rest with
      | nil => rw [hfo] at hy; cases hy
      | cons a as =>
        rw [hfo] at hy
        simp only [List.head?_cons, Option.mem_def, Option.some.injEq] at hy
        subst hy
        exact filterOverlapping_head_ge m.stop rest a as hfo
    · exact filterOverlapping_chain c rest

theorem filterOverlapping_mem_start_ge : ∀ (c : Int) (l : List Span),
    l.Pairwise (fun a b => a.start ≤ b.start) →
    ∀ s ∈ filterOverlapping c l, c ≤ s.start
  | _, [], _, s, hs => by simp [filterOverlapping] at hs
  | c, m :: rest, hp, s, hs => by
    rw [filterOverlapping] at hs
    rw [List.pairwise_cons] at hp
    split at hs
    · rename_i hacc
      cases hs with
      | head => exact hacc
      | tail _ hmem =>
        have : s ∈ rest := (filterOverlapping_sublist m.stop rest).subset hmem
        exact le_trans hacc (hp.1 s this)
    · exact filterOverlapping_mem_start_ge c rest hp.2 s hs

theorem spanLE_trans : ∀ (a b c : Span), spanLE a b → spanLE b c → spanLE a c := by
  intro a b c hab hbc
  simp only [spanLE, decide_eq_true_eq] at *
  omega

theorem spanLE_total : ∀ (a b : Span), spanLE a b || spanLE b a := by
  intro a b
  simp only [spanLE, Bool.or_eq_true, decide_eq_true_eq]
  omega

theorem sortMatches_perm (ms : List Span) : (sortMatches ms).Perm ms :=
  List.mergeSort_perm ms spanLE

theorem sortMatches_key_sorted (ms : List Span) :
    (sortMatches ms).Pairwise
      (fun a b => a.start < b.start ∨ (a.start = b.start ∧ b.stop ≤ a.stop)) := by
  have h := @List.sorted_mergeSort Span spanLE spanLE_trans spanLE_total ms
  exact h.imp (fun hab => by simpa [spanLE] using hab)

theorem sortMatches_start_mono (ms : List Span) :
    (sortMatches ms).Pairwise (fun a b => a.start ≤ b.start) :=
  (sortMatches_key_sorted ms).imp (fun h => by omega)

theorem chain_strict : ∀ (xs : List Span), (∀ s ∈ xs, s.start < s.stop) →
    xs.Chain' (fun a b => a.stop ≤ b.start) →
    xs.Chain' (fun a b => a.start < b.start)
  | [], _, _ => List.chain'_nil
  | [_], _, _ => List.chain'_singleton _
  | a :: b :: t, hv, hc => by
    rw [List.chain'_cons] at hc ⊢
    refine ⟨lt_of_lt_of_le (hv a (by simp)) hc.1, ?_⟩
    exact chain_strict (b :: t) (fun s hs => hv s (List.mem_cons_of_mem a hs)) hc.2

/-- Claim C1: the Span Resolver implements exactly the deterministic greedy
interval-scheduling policy: candidates are sorted by (start ascending, end
descending), then swept once with `current_end` initialized to 0, a candidate
being accepted iff `start >= current_end` (with `current_end := stop` on
acceptance) and dropped from the remainder of the sweep otherwise. -/
theorem resolver_greedy_policy (ms : List Span) :
    resolveSpans ms = filterOverlapping 0 (sortMatches ms)
    ∧ (sortMatches ms).Perm ms
    ∧ (sortMatches ms).Pairwise
        (fun a b => a.start < b.start ∨ (a.start = b.start ∧ b.stop ≤ a.stop))
    ∧ ∀ (c : Int) (m : Span) (rest : List Span),
        filterOverlapping c (m :: rest) =
          if m.start ≥ c then m :: filterOverlapping m.stop rest
          else filterOverlapping c rest :=
  ⟨rfl, sortMatches_perm ms, sortMatches_key_sorted ms, fun _ _ _ => rfl⟩

/-- Claim C2: for every candidate set of well-formed spans (start < stop, per
the data model), the Resolved set is pairwise non-overlapping
(adjacent `stop ≤ start`) and strictly increasing in start. -/
theorem resolved_nonoverlap (ms : List Span) (hv : ∀ s ∈ ms, s.start < s.stop) :
    (resolveSpans ms).Chain' (fun a b => a.stop ≤ b.start)
    ∧ (resolveSpans ms).Chain' (fun a b => a.start < b.start) := by
  have hchain := filterOverlapping_chain 0 (sortMatches ms)
  refine ⟨hchain, chain_strict _ ?_ hchain⟩
  intro s hs
  have hmem : s ∈ sortMatches ms :=
    (filterOverlapping_sublist 0 (sortMatches ms)).subset hs
  exact hv s ((sortMatches_perm ms).subset hmem)

theorem resolved_nonoverlap_witness :
    (∀ s ∈ [Span.mk 0 2 "PHONE"], s.start < s.stop)
    ∧ ((resolveSpans [Span.mk 0 2 "PHONE"]).Chain' (fun a b => a.stop ≤ b.start)
       ∧ (resolveSpans [Span.mk 0 2 "PHONE"]).Chain' (fun a b => a.start < b.start)) :=
  ⟨by decide, resolved_nonoverlap _ (by decide)⟩

/-- Claim C3 counterexample: a zero-length candidate (start = stop) IS
accepted into the Resolved set — the sweep has no degenerate-match guard, and
`start >= current_end` holds for a sole zero-length span at offset 0. -/
theorem zero_length_accepted :
    (Span.mk 0 0 "DEGENERATE").start = (Span.mk 0 0 "DEGENERATE").stop
    ∧ resolveSpans [Span.mk 0 0 "DEGENERATE"] = [Span.mk 0 0 "DEGENERATE"] := by
  refine ⟨rfl, ?_⟩
  simp [resolveSpans, sortMatches, filterOverlapping]

/-- Claim C3 amended: the resolver applies the same `start >= current_end`
rule to zero-length candidates as to any other — in particular a sole
zero-length candidate at a nonnegative offset is accepted, not rejected. -/
theorem zero_length_policy (p : Int) (lbl : String) (hp : 0 ≤ p) :
    resolveSpans [Span.mk p p lbl] = [Span.mk p p lbl] := by
  simp [resolveSpans, sortMatches, filterOverlapping, hp]

theorem zero_length_policy_witness :
    0 ≤ (7 : Int) ∧ resolveSpans [Span.mk 7 7 "X"] = [Span.mk 7 7 "X"] :=
  ⟨by decide, zero_length_policy 7 "X" (by decide)⟩

/-- Claim C4 counterexample: a span lying wholly beyond the text length is
NOT discarded by the Resolver — it is accepted into the Resolved set (and a
placeholder is emitted for it). -/
theorem out_of_range_not_discarded :
    (anonymize_text "ab".data [Span.mk 100 105 "X"]).entities = [Span.mk 100 105 "X"]
    ∧ (("ab".data.length : Int) < (Span.mk 100 105 "X").start) := by
  constructor
  · simp [anonymize_text, resolveSpans, sortMatches, filterOverlapping]
  · decide

/-- Claim C4 amended: of the malformed-span cases, only a negative `start` is
silently discarded (the sweep's `current_end` starts at 0, so such a span
never enters the Resolved set); spans with `stop ≤ start` or offsets beyond
the text length are not filtered and can be accepted; no error is raised in
any case since slicing clamps. -/
theorem negative_start_never_resolved (ms : List Span) (s : Span)
    (hs : s ∈ resolveSpans ms) : 0 ≤ s.start :=
  filterOverlapping_mem_start_ge 0 _ (sortMatches_start_mono ms) s hs

theorem negative_start_never_resolved_witness :
    Span.mk 0 1 "A" ∈ resolveSpans [Span.mk 0 1 "A"]
    ∧ 0 ≤ (Span.mk 0 1 "A").start := by
  have hmem : Span.mk 0 1 "A" ∈ resolveSpans [Span.mk 0 1 "A"] := by
    simp [resolveSpans, sortMatches, filterOverlapping]
  exact ⟨hmem, negative_start_never_resolved _ _ hmem⟩

/-- Accumulator-free form of the reconstruction loop: the pieces emitted for
each span, concatenated in order. -/
def reconstructFrom (text : List Char) (last_index : Int) : List Span → List Char
  | [] => pythonSliceFrom text last_index
  | m :: rest =>
    pythonSlice text last_index m.start ++ placeholder m
      ++ reconstructFrom text m.stop rest

theorem reconstructAux_eq : ∀ (text acc : List Char) (last_index : Int)
    (spans : List Span),
    reconstructAux text acc last_index spans = acc ++ reconstructFrom text last_index spans
  | _, _, _, [] => by simp [reconstructAux, reconstructFrom]
  | text, acc, last_index, m :: rest => by
    rw [reconstructAux, reconstructFrom, reconstructAux_eq]
    simp

theorem pyNorm_eq (n : Nat) (i : Int) (h0 : 0 ≤ i) (hn : i ≤ (n : Int)) :
    pyNorm n i = i.toNat := by
  unfold pyNorm
  rw [if_neg (by omega)]
  omega

theorem pythonSlice_eq (text : List Char) (a b : Int) (ha0 : 0 ≤ a)
    (han : a ≤ (text.length : Int)) (hb0 : 0 ≤ b) (hbn : b ≤ (text.length : Int)) :
    pythonSlice text a b = (text.take b.toNat).drop a.toNat := by
  unfold pythonSlice
  rw [pyNorm_eq _ _ ha0 han, pyNorm_eq _ _ hb0 hbn]

theorem pythonSliceFrom_eq (text : List Char) (a : Int) (ha0 : 0 ≤ a)
    (han : a ≤ (text.length : Int)) :
    pythonSliceFrom text a = text.drop a.toNat := by
  unfold pythonSliceFrom
  rw [pyNorm_eq _ _ ha0 han]

theorem placeholder_length (m : Span) :
    (placeholder m).length = m.label.length + 2 := by
  show ('[' :: m.label.data ++ [']']).length = m.label.length + 2
  rw [show m.label.length = m.label.data.length from rfl]
  simp

theorem reconstructFrom_spec : ∀ (text : List Char) (c : Int) (spans : List Span),
    0 ≤ c → c ≤ (text.length : Int) → validFrom text.length c spans = true →
    reconstructFrom text c spans = specReconstruct text c.toNat spans
    ∧ ((reconstructFrom text c spans).length : Int) =
        ((text.length : Int) - c) - (spans.map (fun s => s.stop - s.start)).sum
          + (spans.map (fun s => (s.label.length : Int) + 2)).sum
  | text, c, [], h0, hn, _ => by
    rw [reconstructFrom, specReconstruct, pythonSliceFrom_eq text c h0 hn]
    refine ⟨rfl, ?_⟩
    simp [List.length_drop]
    omega
  | text, c, m :: rest, h0, hn, hv => by
    rw [validFrom] at hv
    simp only [Bool.and_eq_true, decide_eq_true_eq] at hv
    obtain ⟨⟨⟨hcs, hss⟩, hsn⟩, hvrest⟩ := hv
    have h1 : reconstructFrom text c (m :: rest) =
        (text.take m.start.toNat).drop c.toNat ++ placeholder m
          ++ reconstructFrom text m.stop rest := by
      rw [reconstructFrom, pythonSlice_eq text c m.start h0 hn (by omega) (by omega)]
    obtain ⟨ih1, ih2⟩ := reconstructFrom_spec text m.stop rest (by omega) hsn hvrest
    constructor
    · rw [h1, specReconstruct, ih1]
    · rw [h1]
      simp only [List.length_append, List.length_drop, List.length_take,
        placeholder_length, List.map_cons, List.sum_cons]
      omega

/-- Claim C5: for every text and every valid resolved chain of spans inside
it, the rebuilt output is the spec's substitution (untouched text copied as
literal in-order slices of the input) and its length equals the input length
minus the replaced span lengths plus the placeholder lengths
`len("[" + label + "]")`. -/
theorem reconstruction_conservation (text : List Char) (spans : List Span)
    (hv : validFrom text.length 0 spans = true) :
    reconstructText text spans = specReconstruct text 0 spans
    ∧ ((reconstructText text spans).length : Int) =
        (text.length : Int) - (spans.map (fun s => s.stop - s.start)).sum
          + (spans.map (fun s => (s.label.length : Int) + 2)).sum := by
  obtain ⟨h1, h2⟩ := reconstructFrom_spec text 0 spans le_rfl (by omega) hv
  have haux : reconstructText text spans = reconstructFrom text 0 spans := by
    rw [reconstructText, reconstructAux_eq]
    simp
  rw [haux, h2, h1]
  refine ⟨by norm_num, by omega⟩

theorem reconstruction_conservation_witness :
    validFrom "abcd".data.length 0 [Span.mk 1 3 "X"] = true
    ∧ (reconstructText "abcd".data [Span.mk 1 3 "X"] =
        specReconstruct "abcd".data 0 [Span.mk 1 3 "X"]
      ∧ ((reconstructText "abcd".data [Span.mk 1 3 "X"]).length : Int) =
        ("abcd".data.length : Int)
          - ([Span.mk 1 3 "X"].map (fun s => s.stop - s.start)).sum
          + ([Span.mk 1 3 "X"].map (fun s => (s.label.length : Int) + 2)).sum) :=
  ⟨by decide, reconstruction_conservation _ _ (by decide)⟩

/-- Claim C10: when the detection phase produces no candidates at all, the
anonymizer returns the input text unchanged with an empty entity list. -/
theorem empty_candidates_identity (text : List Char) :
    anonymize_text text [] = ⟨text, []⟩ := by
  simp [anonymize_text, resolveSpans, sortMatches, filterOverlapping,
    reconstructText, reconstructAux, pythonSliceFrom, pyNorm]

/-- Claim C6 counterexample: with two sources of which only the first fails,
detection surfaces the error even though not every source failed, and the
succeeding source's candidates (which it would return when queried alone)
are not collected. -/
theorem source_failure_aborts :
    collectCandidates [Except.error "model unavailable",
        Except.ok [Span.mk 0 1 "EMAIL"]] = Except.error "model unavailable"
    ∧ collectCandidates ([Except.ok [Span.mk 0 1 "EMAIL"]] :
        List (Except String (List Span))) = Except.ok [Span.mk 0 1 "EMAIL"] :=
  ⟨rfl, rfl⟩

/-- Claim C6 amended: the detection loop has no per-source error handling:
the first raising source aborts detection and its error propagates to the
caller unconditionally, regardless of how many earlier sources succeeded or
of what the later sources would return. -/
theorem detection_aborts_on_first_failure {ε : Type} (good : List (List Span))
    (e : ε) (rest : List (Except ε (List Span))) :
    collectCandidates (good.map Except.ok ++ Except.error e :: rest) =
      Except.error e := by
  induction good with
  | nil =>
    show collectCandidates (Except.error e :: rest) = Except.error e
    rfl
  | cons g gs ih =>
    show collectCandidates (Except.ok g :: (gs.map Except.ok ++ Except.error e :: rest))
      = Except.error e
    rw [collectCandidates]
    simp only [ih]
    rfl

theorem filter_not_mem_nil (expected anonymized : List String)
    (hano : ∀ a ∈ anonymized, a ∈ expected) :
    anonymized.filter (fun a => decide (a ∉ expected)) = [] := by
  rw [List.filter_eq_nil_iff]
  intro a ha
  simp [hano a ha]

theorem buildYPairs_all_matched (expected anonymized : List String)
    (hexp : ∀ e ∈ expected, e ∈ anonymized)
    (hano : ∀ a ∈ anonymized, a ∈ expected) :
    buildYPairs expected anonymized = expected.map (fun _ => (1, 1)) := by
  unfold buildYPairs
  rw [filter_not_mem_nil expected anonymized hano]
  have h1 : expected.map (fun e => ((1 : Nat), if e ∈ anonymized then (1 : Nat) else 0))
      = expected.map (fun _ => (1, 1)) :=
    List.map_congr_left (fun e he => by rw [if_pos (hexp e he)])
  simp [h1]

theorem counts_const11 (l : List String) :
    tpCount (l.map fun _ => ((1 : Nat), (1 : Nat))) = l.length
    ∧ fpCount (l.map fun _ => ((1 : Nat), (1 : Nat))) = 0
    ∧ fnCount (l.map fun _ => ((1 : Nat), (1 : Nat))) = 0 := by
  refine ⟨?_, ?_, ?_⟩ <;>
    · simp only [tpCount, fpCount, fnCount, List.countP_map]
      simp [Function.comp]

theorem eval_all_matched (expected anonymized : List String)
    (hexp : ∀ e ∈ expected, e ∈ anonymized)
    (hano : ∀ a ∈ anonymized, a ∈ expected) (hne : expected ≠ []) :
    evaluateTokens expected anonymized = (1, 1, 1) := by
  obtain ⟨htp, hfp, hfn⟩ := counts_const11 expected
  have hn : expected.length ≠ 0 := by simpa [List.length_eq_zero] using hne
  have hq : ((expected.length : ℚ)) ≠ 0 := Nat.cast_ne_zero.mpr hn
  have h2q : (2 : ℚ) * (expected.length : ℚ) ≠ 0 := mul_ne_zero two_ne_zero hq
  show (precision_score (buildYPairs expected anonymized),
        recall_score (buildYPairs expected anonymized),
        f1_score (buildYPairs expected anonymized)) = (1, 1, 1)
  rw [buildYPairs_all_matched expected anonymized hexp hano]
  unfold precision_score recall_score f1_score
  rw [htp, hfp, hfn]
  rw [if_neg (by omega), if_neg (by omega)]
  rw [Prod.mk.injEq, Prod.mk.injEq]
  push_cast
  refine ⟨?_, ?_, ?_⟩
  · rw [add_zero]
    exact div_self hq
  · rw [add_zero]
    exact div_self hq
  · rw [add_zero, add_zero]
    exact div_self h2q

/-- Claim C7 counterexample: the empty actual token list equals the empty
expected token list as a multiset, yet evaluation returns all-zero metrics
(the zero-division guard), not 1.0. -/
theorem perfect_match_empty_cex :
    List.Perm ([] : List String) [] ∧ evaluateTokens [] [] ≠ (1, 1, 1) := by
  refine ⟨List.Perm.refl _, ?_⟩
  simp [evaluateTokens, buildYPairs, precision_score, recall_score, f1_score,
    tpCount, fpCount, fnCount, Prod.ext_iff]

/-- Claim C7 amended: if the multiset of actual placeholder tokens equals the
multiset of expected tokens exactly and the multiset is nonempty, then
Precision = Recall = F1 = 1; on the empty multiset the zero-division guard
yields 0 instead. -/
theorem perfect_match_metrics (expected anonymized : List String)
    (hperm : expected.Perm anonymized) (hne : expected ≠ []) :
    evaluateTokens expected anonymized = (1, 1, 1) :=
  eval_all_matched expected anonymized (fun _ he => hperm.mem_iff.mp he)
    (fun _ ha => hperm.mem_iff.mpr ha) hne

theorem perfect_match_metrics_witness :
    (["EMAIL"] : List String).Perm ["EMAIL"]
    ∧ (["EMAIL"] : List String) ≠ []
    ∧ evaluateTokens ["EMAIL"] ["EMAIL"] = (1, 1, 1) :=
  ⟨List.Perm.refl _, by simp,
    perfect_match_metrics _ _ (List.Perm.refl _) (by simp)⟩

/-- Claim C8: evaluating empty expected and actual token lists yields
Precision = Recall = F1 = 0 without any division error, and in general each
metric is 0 whenever its denominator is 0. -/
theorem zero_division_guard :
    evaluateTokens [] [] = (0, 0, 0)
    ∧ (∀ pairs, tpCount pairs + fpCount pairs = 0 → precision_score pairs = 0)
    ∧ (∀ pairs, tpCount pairs + fnCount pairs = 0 → recall_score pairs = 0)
    ∧ (∀ pairs, 2 * tpCount pairs + fpCount pairs + fnCount pairs = 0 →
        f1_score pairs = 0) := by
  refine ⟨?_, fun pairs h => by rw [precision_score, if_pos h],
    fun pairs h => by rw [recall_score, if_pos h],
    fun pairs h => by rw [f1_score, if_pos h]⟩
  simp [evaluateTokens, buildYPairs, precision_score, recall_score, f1_score,
    tpCount, fpCount, fnCount]

theorem zero_division_guard_witness :
    evaluateTokens [] [] = (0, 0, 0)
    ∧ precision_score [] = 0 ∧ recall_score [] = 0 ∧ f1_score [] = 0 :=
  ⟨zero_division_guard.1, zero_division_guard.2.1 [] rfl,
    zero_division_guard.2.2.1 [] rfl, zero_division_guard.2.2.2 [] rfl⟩

/-- Claim C9 counterexample: the underlying sets of token values of the empty
expected and empty actual lists are equal, yet evaluation returns the
all-zero metrics, not 1.0. -/
theorem set_equal_empty_cex :
    (∀ a ∈ ([] : List String), a ∈ ([] : List String))
    ∧ (∀ e ∈ ([] : List String), e ∈ ([] : List String))
    ∧ evaluateTokens [] [] ≠ (1, 1, 1) := by
  refine ⟨by simp, by simp, ?_⟩
  simp [evaluateTokens, buildYPairs, precision_score, recall_score, f1_score,
    tpCount, fpCount, fnCount, Prod.ext_iff]

/-- Claim C9 amended: evaluation is a membership test: for every expected and
actual list, the false-positive count equals the number of actual tokens with
no equal-valued token anywhere in the expected list — so an actual token with
at least one equal-valued counterpart is never counted as a false positive,
regardless of multiplicity; and whenever the underlying sets of token values
are equal (regardless of duplicate counts) and the expected list is nonempty,
Precision = Recall = F1 = 1. On two empty lists the metrics are 0. -/
theorem membership_evaluation :
    (∀ (expected anonymized : List String),
      fpCount (buildYPairs expected anonymized) =
        (anonymized.filter (fun a => decide (a ∉ expected))).length)
    ∧ (∀ (expected anonymized : List String), (∀ a ∈ anonymized, a ∈ expected) →
        (∀ e ∈ expected, e ∈ anonymized) → expected ≠ [] →
        evaluateTokens expected anonymized = (1, 1, 1)) := by
  constructor
  · intro expected anonymized
    unfold buildYPairs fpCount
    rw [List.countP_append, List.countP_map, List.countP_map]
    have h1 : ((fun (p : Nat × Nat) => p.1 == 0 && p.2 == 1)
        ∘ fun (e : String) => ((1 : Nat), if e ∈ anonymized then (1 : Nat) else 0))
        = fun _ => false := by
      funext e
      simp [Function.comp]
    have h2 : ((fun (p : Nat × Nat) => p.1 == 0 && p.2 == 1)
        ∘ fun (_ : String) => ((0 : Nat), (1 : Nat))) = fun _ => true := by
      funext a
      simp [Function.comp]
    rw [h1, h2]
    simp
  · intro expected anonymized hano hexp hne
    exact eval_all_matched expected anonymized hexp hano hne

theorem membership_evaluation_witness :
    fpCount (buildYPairs ["A"] ["A", "A", "B"]) =
      ((["A", "A", "B"] : List String).filter
        (fun a => decide (a ∉ (["A"] : List String)))).length
    ∧ evaluateTokens ["A", "A"] ["A"] = (1, 1, 1) :=
  ⟨membership_evaluation.1 ["A"] ["A", "A", "B"],
    membership_evaluation.2 ["A", "A"] ["A"] (by decide) (by decide) (by simp)⟩

end ChatPII
